import Mathlib

/-!
# Wallet API (package wallet, file wallet/api.go)

A shallow embedding of the API methods of `wallet/api.go`.  The API type is a
thin layer over `*Wallet`; the wallet methods and the helpers of the other
packages (`waddrmgr`, `qitmeerjson`, `types`, `utils`, `address`, `hex`,
`secp256k1`, `txrules`) are not part of the file, so they are taken as the
fields of an environment `Env`.  Every API method threads the wallet state
explicitly and records the state-changing wallet methods it invokes.
-/

set_option autoImplicit false

namespace Wallet

/-! ## Machine integers and data types -/

/-- Amounts are Go `int64` values (`types.Amount`), embedded as integers. -/
abbrev Amount := Int

/-- Two-complement reduction of an integer to the `int64` range. -/
def wrapInt64 (x : Int) : Int :=
  (x + 9223372036854775808) % 18446744073709551616 - 9223372036854775808

/-- Go `+` on `int64`. -/
def addInt64 (a b : Int) : Int := wrapInt64 (a + b)

/-- Go `-` on `int64`. -/
def subInt64 (a b : Int) : Int := wrapInt64 (a - b)

/-- Membership of the `int64` range. -/
def inInt64 (x : Int) : Prop :=
  -9223372036854775808 ≤ x ∧ x < 9223372036854775808

instance (x : Int) : Decidable (inInt64 x) := by
  unfold inInt64; infer_instance

/-- The struct `Balance`; the zero value has all four fields zero. -/
structure Balance where
  TotalAmount : Amount := 0
  UnspendAmount : Amount := 0
  SpendAmount : Amount := 0
  ConfirmAmount : Amount := 0
deriving DecidableEq

/-- The struct `AddrAndAddrTxOutput`, with the fields the API reads. -/
structure AddrAndAddrTxOutput where
  Addr : String
  balance : Balance
deriving DecidableEq

/-- The struct `AccountAndAddressResult`, with the fields the API reads. -/
structure AccountAndAddressResult where
  AccountNumber : Nat
  AccountName : String
  AddrsOutput : List AddrAndAddrTxOutput
deriving DecidableEq

/-- The struct `qitmeerjson.RPCError`. -/
structure RPCError where
  Code : Int
  Message : String
deriving DecidableEq

/-- The type `waddrmgr.ErrorCode` (a Go `int`). -/
abbrev ErrorCode := Int

/-- The struct `waddrmgr.KeyScope`. -/
structure KeyScope where
  Purpose : Nat
  Coin : Nat
deriving DecidableEq

/-- A Go map with string keys, as an association list with unique keys kept in
insertion order. -/
abbrev GoMap (α : Type) := List (String × α)

/-- Map lookup `m[k]` with the comma-ok result. -/
def GoMap.get? {α : Type} : GoMap α → String → Option α
  | [], _ => none
  | (k1, v) :: rest, k => if k1 = k then some v else GoMap.get? rest k

/-- Map assignment `m[k] = v`. -/
def GoMap.set {α : Type} : GoMap α → String → α → GoMap α
  | [], k, v => [(k, v)]
  | (k1, v1) :: rest, k, v =>
    if k1 = k then (k, v) :: rest else (k1, v1) :: GoMap.set rest k v

/-- The keys of a map. -/
def GoMap.keys {α : Type} (m : GoMap α) : List String := m.map Prod.fst

/-! ## The environment of the API -/

/-- The types that `api.go` only handles through other packages. -/
structure Sig where
  /-- The mutable state behind `*Wallet`. -/
  State : Type
  /-- Non-nil values of the Go interface `error`. -/
  Error : Type
  /-- Decoded addresses, `types.Address`. -/
  Address : Type
  /-- Decoded keys, `*utils.WIF`. -/
  WIF : Type
  /-- Chain parameters, `*chaincfg.Params`. -/
  Params : Type
  /-- Private keys, `*secp256k1.PrivateKey`. -/
  PrivKey : Type
  /-- Go `float64` values. -/
  Float64 : Type

/-- A Go `error`: `none` is `nil`. -/
abbrev GoErr (S : Sig) := Option S.Error

/-- Everything `api.go` uses from outside the file: constants, pure helpers, and
the methods of `*Wallet` (each maps a wallet state to its results and the next
wallet state). -/
structure Env (S : Sig) where
  /-- Constant `waddrmgr.KeyScopeBIP0044`. -/
  KeyScopeBIP0044 : KeyScope
  /-- Constant `waddrmgr.ImportedAddrAccountName`. -/
  ImportedAddrAccountName : String
  /-- Constant `waddrmgr.AccountMergePayNum`. -/
  AccountMergePayNum : Int
  /-- Constant `waddrmgr.ErrLocked`. -/
  ErrLocked : ErrorCode
  /-- Constant `waddrmgr.ErrDuplicateAddress`. -/
  ErrDuplicateAddress : ErrorCode
  /-- Helper `waddrmgr.IsError(err, code)`. -/
  IsError : GoErr S → ErrorCode → Bool
  /-- A `*qitmeerjson.RPCError` seen as an `error`. -/
  rpcError : RPCError → S.Error
  /-- Method `err.Error()`. -/
  errorText : S.Error → String
  /-- Variable `qitmeerjson.ErrReservedAccountName`. -/
  ErrReservedAccountName : RPCError
  /-- Variable `qitmeerjson.ErrNotImportedAccount`. -/
  ErrNotImportedAccount : RPCError
  /-- Variable `qitmeerjson.ErrWalletUnlockNeeded`. -/
  ErrWalletUnlockNeeded : RPCError
  /-- Variable `qitmeerjson.ErrNeedPositiveAmount`. -/
  ErrNeedPositiveAmount : S.Error
  /-- Constant `qitmeerjson.ErrRPCWalletUnlockNeeded`. -/
  ErrRPCWalletUnlockNeeded : Int
  /-- Constant `qitmeerjson.ErrRPCInvalidAddressOrKey`. -/
  ErrRPCInvalidAddressOrKey : Int
  /-- Constant `txrules.DefaultRelayFeePerKb`. -/
  DefaultRelayFeePerKb : Amount
  /-- Function `types.NewAmount`. -/
  NewAmount : S.Float64 → Amount × GoErr S
  /-- Function `address.DecodeAddress`. -/
  DecodeAddress : String → Except S.Error S.Address
  /-- Function `utils.DecodeWIF`. -/
  DecodeWIF : String → S.Params → Except S.Error S.WIF
  /-- Function `utils.NewWIF`. -/
  NewWIF : S.PrivKey → S.Params → Bool → Except S.Error S.WIF
  /-- Method `wif.IsForNet`. -/
  IsForNet : S.WIF → S.Params → Bool
  /-- Field `Name` of the chain parameters. -/
  ParamsName : S.Params → String
  /-- Function `hex.DecodeString`. -/
  hexDecodeString : String → List Nat × GoErr S
  /-- Function `secp256k1.PrivKeyFromBytes`, first result. -/
  PrivKeyFromBytes : List Nat → S.PrivKey
  /-- Accessor `api.wt.ChainParams()`. -/
  ChainParams : S.State → S.Params
  /-- Method `api.wt.NextAccount`. -/
  NextAccount : S.State → KeyScope → String → (Nat × GoErr S) × S.State
  /-- Method `api.wt.AccountNumber`. -/
  AccountNumber : S.State → KeyScope → String → (Nat × GoErr S) × S.State
  /-- Method `api.wt.GetAccountAndAddress`. -/
  GetAccountAndAddress :
    S.State → KeyScope → (List AccountAndAddressResult × GoErr S) × S.State
  /-- Method `api.wt.DumpWIFPrivateKey`. -/
  DumpWIFPrivateKey : S.State → S.Address → (String × GoErr S) × S.State
  /-- Method `api.wt.ImportPrivateKey`. -/
  ImportPrivateKey : S.State → KeyScope → S.WIF → (String × GoErr S) × S.State
  /-- Method `api.wt.SendPairs`. -/
  SendPairs :
    S.State → GoMap Amount → Int → Amount → (String × GoErr S) × S.State

/-- An invocation of a state-changing method of `*Wallet`, with its arguments. -/
inductive Call (S : Sig) where
  | NextAccount (scope : KeyScope) (name : String)
  | AccountNumber (scope : KeyScope) (name : String)
  | GetAccountAndAddress (scope : KeyScope)
  | DumpWIFPrivateKey (addr : S.Address)
  | ImportPrivateKey (scope : KeyScope) (wif : S.WIF)
  | SendPairs (pairs : GoMap Amount) (account : Int) (feeRate : Amount)

/-- The outcome of one API call: the returned values, the wallet state after the
call, and the wallet methods invoked, in order. -/
structure Outcome (S : Sig) (α : Type) where
  ret : α
  state : S.State
  calls : List (Call S)

/-- Whether a recorded call is a `NextAccount`. -/
def Call.isNextAccount {S : Sig} : Call S → Bool
  | .NextAccount _ _ => true
  | _ => false

/-- Whether a recorded call is an `ImportPrivateKey`. -/
def Call.isImportPrivateKey {S : Sig} : Call S → Bool
  | .ImportPrivateKey _ _ => true
  | _ => false

/-- Whether a recorded call is a `SendPairs`. -/
def Call.isSendPairs {S : Sig} : Call S → Bool
  | .SendPairs _ _ _ => true
  | _ => false

/-! ## The API methods -/

variable {S : Sig}

/-- Method `API.CreateAccount`. -/
def CreateAccount (E : Env S) (s : S.State) (name : String) : Outcome S (GoErr S) :=
  if name = "*" then
    ⟨some (E.rpcError E.ErrReservedAccountName), s, []⟩
  else
    let r := E.NextAccount s E.KeyScopeBIP0044 name
    let err := r.1.2
    if E.IsError err E.ErrLocked = true then
      ⟨some (E.rpcError
          ⟨E.ErrRPCWalletUnlockNeeded,
            "Creating an account requires the wallet to be unlocked. " ++
            "Enter the wallet passphrase with walletpassphrase to unlock"⟩),
        r.2, [Call.NextAccount E.KeyScopeBIP0044 name]⟩
    else
      ⟨none, r.2, [Call.NextAccount E.KeyScopeBIP0044 name]⟩

/-- Method `API.DumpPrivKey`. -/
def DumpPrivKey (E : Env S) (s : S.State) (addrStr : String) :
    Outcome S (String × GoErr S) :=
  match E.DecodeAddress addrStr with
  | .error err => ⟨("", some err), s, []⟩
  | .ok addr =>
    let r := E.DumpWIFPrivateKey s addr
    let key := r.1.1
    let err := r.1.2
    if E.IsError err E.ErrLocked = true then
      ⟨("", some (E.rpcError E.ErrWalletUnlockNeeded)), r.2, [Call.DumpWIFPrivateKey addr]⟩
    else
      ⟨(key, err), r.2, [Call.DumpWIFPrivateKey addr]⟩

/-- Method `API.ImportWifPrvKey`. -/
def ImportWifPrvKey (E : Env S) (s : S.State) (accountName key : String) :
    Outcome S (GoErr S) :=
  if accountName ≠ "" ∧ accountName ≠ E.ImportedAddrAccountName then
    ⟨some (E.rpcError E.ErrNotImportedAccount), s, []⟩
  else
    match E.DecodeWIF key (E.ChainParams s) with
    | .error err =>
      ⟨some (E.rpcError
          ⟨E.ErrRPCInvalidAddressOrKey, "WIF decode failed: " ++ E.errorText err⟩), s, []⟩
    | .ok wif =>
      if E.IsForNet wif (E.ChainParams s) = false then
        ⟨some (E.rpcError
            ⟨E.ErrRPCInvalidAddressOrKey,
              "Key is not intended for " ++ E.ParamsName (E.ChainParams s)⟩), s, []⟩
      else
        let r := E.ImportPrivateKey s E.KeyScopeBIP0044 wif
        let err := r.1.2
        if E.IsError err E.ErrDuplicateAddress = true then
          ⟨none, r.2, [Call.ImportPrivateKey E.KeyScopeBIP0044 wif]⟩
        else if E.IsError err E.ErrLocked = true then
          ⟨some (E.rpcError E.ErrWalletUnlockNeeded), r.2,
            [Call.ImportPrivateKey E.KeyScopeBIP0044 wif]⟩
        else
          ⟨err, r.2, [Call.ImportPrivateKey E.KeyScopeBIP0044 wif]⟩

/-- Method `API.ImportPriKey`. -/
def ImportPriKey (E : Env S) (s : S.State) (accountName key : String) :
    Outcome S (GoErr S) :=
  if accountName ≠ "" ∧ accountName ≠ E.ImportedAddrAccountName then
    ⟨some (E.rpcError E.ErrNotImportedAccount), s, []⟩
  else
    match (E.hexDecodeString key).2 with
    | some err => ⟨some err, s, []⟩
    | none =>
      let priHash := (E.hexDecodeString key).1
      let pri := E.PrivKeyFromBytes priHash
      match E.NewWIF pri (E.ChainParams s) true with
      | .error err =>
        ⟨some (E.rpcError
            ⟨E.ErrRPCInvalidAddressOrKey,
              "private key decode failed: " ++ E.errorText err⟩), s, []⟩
      | .ok wif =>
        if E.IsForNet wif (E.ChainParams s) = false then
          ⟨some (E.rpcError
              ⟨E.ErrRPCInvalidAddressOrKey,
                "Key is not intended for " ++ E.ParamsName (E.ChainParams s)⟩), s, []⟩
        else
          let r := E.ImportPrivateKey s E.KeyScopeBIP0044 wif
          let err := r.1.2
          if E.IsError err E.ErrDuplicateAddress = true then
            ⟨none, r.2, [Call.ImportPrivateKey E.KeyScopeBIP0044 wif]⟩
          else if E.IsError err E.ErrLocked = true then
            ⟨some (E.rpcError E.ErrWalletUnlockNeeded), r.2,
              [Call.ImportPrivateKey E.KeyScopeBIP0044 wif]⟩
          else
            ⟨err, r.2, [Call.ImportPrivateKey E.KeyScopeBIP0044 wif]⟩

/-- Method `API.SendToAddress`. -/
def SendToAddress (E : Env S) (s : S.State) (addressStr : String) (amount : S.Float64) :
    Outcome S (String × GoErr S) :=
  let amt := (E.NewAmount amount).1
  match (E.NewAmount amount).2 with
  | some err => ⟨("", some err), s, []⟩
  | none =>
    if amt < 0 then
      ⟨("", some E.ErrNeedPositiveAmount), s, []⟩
    else
      let pairs : GoMap Amount := [(addressStr, amt)]
      let r := E.SendPairs s pairs E.AccountMergePayNum E.DefaultRelayFeePerKb
      ⟨r.1, r.2, [Call.SendPairs pairs E.AccountMergePayNum E.DefaultRelayFeePerKb]⟩

/-- The loop of `API.SendToMany`: the entries of `addAmounts` are visited in the
order of the list; the result is the error of the early return, or the map
`pairs` the loop built. -/
def SendToMany.loop (E : Env S) :
    List (String × S.Float64) → GoMap Amount → Except S.Error (GoMap Amount)
  | [], pairs => .ok pairs
  | (addr, amount) :: rest, pairs =>
    let amt := (E.NewAmount amount).1
    match (E.NewAmount amount).2 with
    | some err => .error err
    | none =>
      if amt < 0 then
        .error E.ErrNeedPositiveAmount
      else
        SendToMany.loop E rest (GoMap.set pairs addr amt)

/-- Method `API.SendToMany`; the list `addAmounts` gives the entries of the Go map
in the order the `range` loop visits them. -/
def SendToMany (E : Env S) (s : S.State) (addAmounts : List (String × S.Float64)) :
    Outcome S (String × GoErr S) :=
  match SendToMany.loop E addAmounts [] with
  | .error err => ⟨("", some err), s, []⟩
  | .ok pairs =>
    let r := E.SendPairs s pairs E.AccountMergePayNum E.DefaultRelayFeePerKb
    ⟨r.1, r.2, [Call.SendPairs pairs E.AccountMergePayNum E.DefaultRelayFeePerKb]⟩

/-- Method `API.SendToAddressByAccount`. -/
def SendToAddressByAccount (E : Env S) (s : S.State) (accountName addressStr : String)
    (amount : S.Float64) (_comment _commentTo : String) : Outcome S (String × GoErr S) :=
  let a := E.AccountNumber s E.KeyScopeBIP0044 accountName
  let accountNum := a.1.1
  match a.1.2 with
  | some err => ⟨("", some err), a.2, [Call.AccountNumber E.KeyScopeBIP0044 accountName]⟩
  | none =>
    let amt := (E.NewAmount amount).1
    match (E.NewAmount amount).2 with
    | some err => ⟨("", some err), a.2, [Call.AccountNumber E.KeyScopeBIP0044 accountName]⟩
    | none =>
      if amt < 0 then
        ⟨("", some E.ErrNeedPositiveAmount), a.2,
          [Call.AccountNumber E.KeyScopeBIP0044 accountName]⟩
      else
        let pairs : GoMap Amount := [(addressStr, amt)]
        let r := E.SendPairs a.2 pairs (Int.ofNat accountNum) E.DefaultRelayFeePerKb
        ⟨r.1, r.2,
          [Call.AccountNumber E.KeyScopeBIP0044 accountName,
            Call.SendPairs pairs (Int.ofNat accountNum) E.DefaultRelayFeePerKb]⟩

/-- The body of the inner loops of `GetAccountsAndBalance` and
`GetBalanceByAccount`: the four fields of one address are added to the
account balance, each with Go `+` on `int64`. -/
def addAddr (accountBalance : Balance) (addr : AddrAndAddrTxOutput) : Balance :=
  { ConfirmAmount := addInt64 accountBalance.ConfirmAmount addr.balance.ConfirmAmount
    SpendAmount := addInt64 accountBalance.SpendAmount addr.balance.SpendAmount
    TotalAmount := addInt64 accountBalance.TotalAmount addr.balance.TotalAmount
    UnspendAmount := addInt64 accountBalance.UnspendAmount addr.balance.UnspendAmount }

/-- The outer loop of `API.GetAccountsAndBalance` over `aaas`, from the map built
so far.  The map holds pointers: the entry of the account is created when
absent, and the inner loop updates it in place. -/
def GetAccountsAndBalance.loop :
    GoMap Balance → List AccountAndAddressResult → GoMap Balance
  | accountsBalances, [] => accountsBalances
  | accountsBalances, aaa :: rest =>
    let accountsBalances1 :=
      match GoMap.get? accountsBalances aaa.AccountName with
      | none => GoMap.set accountsBalances aaa.AccountName {}
      | some _ => accountsBalances
    let accountBalance := (GoMap.get? accountsBalances1 aaa.AccountName).getD {}
    let accountBalance1 := aaa.AddrsOutput.foldl addAddr accountBalance
    GetAccountsAndBalance.loop
      (GoMap.set accountsBalances1 aaa.AccountName accountBalance1) rest

/-- Method `API.GetAccountsAndBalance`. -/
def GetAccountsAndBalance (E : Env S) (s : S.State) :
    Outcome S (Option (GoMap Balance) × GoErr S) :=
  let r := E.GetAccountAndAddress s E.KeyScopeBIP0044
  let aaas := r.1.1
  match r.1.2 with
  | some err => ⟨(none, some err), r.2, [Call.GetAccountAndAddress E.KeyScopeBIP0044]⟩
  | none =>
    ⟨(some (GetAccountsAndBalance.loop [] aaas), none), r.2,
      [Call.GetAccountAndAddress E.KeyScopeBIP0044]⟩

/-- The outer loop of `API.GetBalanceByAccount` over `results`. -/
def GetBalanceByAccount.loop (name : String) :
    Balance → List AccountAndAddressResult → Balance
  | accountBalance, [] => accountBalance
  | accountBalance, result :: rest =>
    if result.AccountName = name then
      GetBalanceByAccount.loop name (result.AddrsOutput.foldl addAddr accountBalance) rest
    else
      GetBalanceByAccount.loop name accountBalance rest

/-- Method `API.GetBalanceByAccount`. -/
def GetBalanceByAccount (E : Env S) (s : S.State) (name : String) :
    Outcome S (Option Balance × GoErr S) :=
  let r := E.GetAccountAndAddress s E.KeyScopeBIP0044
  let results := r.1.1
  match r.1.2 with
  | some err => ⟨(none, some err), r.2, [Call.GetAccountAndAddress E.KeyScopeBIP0044]⟩
  | none =>
    ⟨(some (GetBalanceByAccount.loop name {} results), none), r.2,
      [Call.GetAccountAndAddress E.KeyScopeBIP0044]⟩

/-! ## A concrete wallet, for evaluating the methods on explicit inputs -/

/-- The state of the concrete wallet. -/
structure DemoState where
  locked : Bool
  accounts : List String
  keys : List String
  listing : List AccountAndAddressResult
deriving DecidableEq

/-- The errors of the concrete wallet: manager errors with their code, RPC
errors, and errors that only carry a text. -/
inductive DemoError where
  | manager (code : ErrorCode)
  | rpc (e : RPCError)
  | text (msg : String)
deriving DecidableEq

/-- The types of the concrete wallet: addresses, keys and chain parameters are
strings, a float is a whole number of coins. -/
abbrev demoSig : Sig where
  State := DemoState
  Error := DemoError
  Address := String
  WIF := String
  Params := String
  PrivKey := List Nat
  Float64 := Int

/-- The manager error code used by the concrete wallet for a duplicate account. -/
def demoErrDuplicateAccount : ErrorCode := 15

/-- The concrete wallet.  `IsError` holds of the manager errors with the given
code; a key is for the network when it starts with the network name; creating
an account fails when the wallet is locked or the name is taken; importing a
key fails when the key is known or the wallet is locked. -/
def demoEnv : Env demoSig where
  KeyScopeBIP0044 := ⟨44, 223⟩
  ImportedAddrAccountName := "imported"
  AccountMergePayNum := 2147483646
  ErrLocked := 9
  ErrDuplicateAddress := 14
  IsError := fun err code =>
    match err with
    | some (DemoError.manager c) => decide (c = code)
    | _ => false
  rpcError := DemoError.rpc
  errorText := fun e =>
    match e with
    | DemoError.manager _ => "manager error"
    | DemoError.rpc r => r.Message
    | DemoError.text m => m
  ErrReservedAccountName := ⟨-8, "Account name is reserved by RPC server"⟩
  ErrNotImportedAccount := ⟨-4, "Imported addresses must belong to the imported account"⟩
  ErrWalletUnlockNeeded := ⟨-13, "Enter the wallet passphrase with walletpassphrase first"⟩
  ErrNeedPositiveAmount := DemoError.text "amount must be positive"
  ErrRPCWalletUnlockNeeded := -13
  ErrRPCInvalidAddressOrKey := -5
  DefaultRelayFeePerKb := 1000
  NewAmount := fun f => (f * 100000000, none)
  DecodeAddress := fun a =>
    if a = "" then .error (DemoError.text "empty address") else .ok a
  DecodeWIF := fun key _ =>
    if key = "" then .error (DemoError.text "malformed private key") else .ok key
  NewWIF := fun pri net _ =>
    if pri = [] then .error (DemoError.text "empty key") else .ok (net ++ "-hex")
  IsForNet := fun wif net => decide (wif.toList.take net.length = net.toList)
  ParamsName := fun net => net
  hexDecodeString := fun key =>
    if key = "zz" then ([], some (DemoError.text "invalid byte")) else ([key.length], none)
  PrivKeyFromBytes := fun b => b
  ChainParams := fun _ => "testnet"
  NextAccount := fun s _ name =>
    if s.locked then ((0, some (DemoError.manager 9)), s)
    else if name ∈ s.accounts then ((0, some (DemoError.manager demoErrDuplicateAccount)), s)
    else ((s.accounts.length, none), { s with accounts := s.accounts ++ [name] })
  AccountNumber := fun s _ name =>
    if name ∈ s.accounts then ((s.accounts.indexOf name, none), s)
    else ((0, some (DemoError.text "account not found")), s)
  GetAccountAndAddress := fun s _ => ((s.listing, none), s)
  DumpWIFPrivateKey := fun s addr =>
    if s.locked then (("", some (DemoError.manager 9)), s)
    else (("wif-of-" ++ addr, none), s)
  ImportPrivateKey := fun s _ wif =>
    if wif ∈ s.keys then (("", some (DemoError.manager 14)), s)
    else if s.locked then (("", some (DemoError.manager 9)), s)
    else (("addr-of-" ++ wif, none), { s with keys := s.keys ++ [wif] })
  SendPairs := fun s pairs _ _ =>
    if pairs = [] then (("", some (DemoError.text "no pairs")), s)
    else (("txid", none), s)

/-- An unlocked concrete wallet with the account `default`, no imported key, and
a listing with two entries for `default` and one for `savings`. -/
def demoState : DemoState where
  locked := false
  accounts := ["default"]
  keys := []
  listing :=
    [ ⟨0, "default", [⟨"a1", ⟨5, 4, 1, 3⟩⟩, ⟨"a2", ⟨7, 7, 0, 7⟩⟩]⟩,
      ⟨1, "savings", [⟨"b1", ⟨10, 8, 2, 9⟩⟩]⟩,
      ⟨0, "default", [⟨"a3", ⟨2, 1, 1, 0⟩⟩]⟩ ]

/-- The concrete wallet `demoState`, locked. -/
def demoLocked : DemoState := { demoState with locked := true }

end Wallet

/-! ## Reference definitions for the balance claims -/

namespace Wallet

/-- The addresses of every listed entry whose account name equals `name`, in the
order of the listing. -/
def addrsOf (name : String) : List AccountAndAddressResult → List AddrAndAddrTxOutput
  | [] => []
  | r :: rest =>
    if r.AccountName = name then r.AddrsOutput ++ addrsOf name rest else addrsOf name rest

/-- The exact integer sum of one balance field over a list of addresses. -/
def sumField (f : Balance → Amount) : List AddrAndAddrTxOutput → Int
  | [] => 0
  | a :: rest => f a.balance + sumField f rest

/-- The account names of a listing. -/
def accountNames (aaas : List AccountAndAddressResult) : List String :=
  aaas.map (fun r => r.AccountName)

/-- The equation `UnspendAmount = TotalAmount − SpendAmount` on a balance, either
in exact integer arithmetic or modulo 2^64. -/
def Balance.unspendEq (b : Balance) : Prop :=
  b.UnspendAmount = b.TotalAmount - b.SpendAmount ∨
    wrapInt64 b.UnspendAmount = wrapInt64 (b.TotalAmount - b.SpendAmount)

instance (b : Balance) : Decidable b.unspendEq := by
  unfold Balance.unspendEq; infer_instance

end Wallet

/-! ## Theorems -/

namespace Wallet

variable {S : Sig}

/-! ### Arithmetic of `int64` -/

theorem wrapInt64_add_left (a b : Int) : wrapInt64 (wrapInt64 a + b) = wrapInt64 (a + b) := by
  unfold wrapInt64; omega

theorem wrapInt64_idem (a : Int) : wrapInt64 (wrapInt64 a) = wrapInt64 a := by
  unfold wrapInt64; omega

theorem wrapInt64_of_inInt64 (x : Int) (h : inInt64 x) : wrapInt64 x = x := by
  unfold inInt64 at h; unfold wrapInt64; omega

theorem inInt64_wrapInt64 (x : Int) : inInt64 (wrapInt64 x) := by
  unfold inInt64 wrapInt64; omega

theorem wrapInt64_sub_of_eq (u t s : Int) (h : wrapInt64 u = wrapInt64 (t - s)) :
    wrapInt64 u = subInt64 (wrapInt64 t) (wrapInt64 s) := by
  unfold subInt64
  unfold wrapInt64 at h ⊢
  omega

theorem wrapInt64_add_of_eq (u t s u1 t1 s1 : Int) (h : wrapInt64 u = wrapInt64 (t - s))
    (h1 : wrapInt64 u1 = wrapInt64 (t1 - s1)) :
    wrapInt64 (u + u1) = wrapInt64 (t + t1 - (s + s1)) := by
  unfold wrapInt64 at h h1 ⊢
  omega

/-! ### Go maps -/

theorem GoMap.get?_set {α : Type} (m : GoMap α) (k k1 : String) (v : α) :
    GoMap.get? (GoMap.set m k v) k1 = if k = k1 then some v else GoMap.get? m k1 := by
  induction m with
  | nil => simp [GoMap.set, GoMap.get?]
  | cons p rest ih =>
    obtain ⟨k0, v0⟩ := p
    by_cases h0 : k0 = k
    · subst h0
      by_cases h1 : k0 = k1 <;> simp [GoMap.set, GoMap.get?, h1]
    · by_cases h1 : k0 = k1
      · subst h1
        have h2 : ¬ k = k0 := fun h => h0 h.symm
        simp [GoMap.set, GoMap.get?, h0, h2]
      · simp [GoMap.set, GoMap.get?, h0, h1, ih]

theorem GoMap.mem_keys_iff {α : Type} (m : GoMap α) (k : String) :
    k ∈ GoMap.keys m ↔ ∃ v, GoMap.get? m k = some v := by
  induction m with
  | nil => simp [GoMap.keys, GoMap.get?]
  | cons p rest ih =>
    obtain ⟨k0, v0⟩ := p
    by_cases h0 : k0 = k
    · subst h0
      simp [GoMap.keys, GoMap.get?]
    · have h1 : ¬ k = k0 := fun h => h0 h.symm
      have ih2 : k ∈ List.map Prod.fst rest ↔ ∃ v, GoMap.get? rest k = some v := ih
      simp only [GoMap.keys, List.map_cons, List.mem_cons, h1, false_or, GoMap.get?, if_neg h0]
      exact ih2

theorem GoMap.keys_set {α : Type} (m : GoMap α) (k : String) (v : α) :
    GoMap.keys (GoMap.set m k v)
      = if k ∈ GoMap.keys m then GoMap.keys m else GoMap.keys m ++ [k] := by
  induction m with
  | nil => simp [GoMap.set, GoMap.keys]
  | cons p rest ih =>
    obtain ⟨k0, v0⟩ := p
    have ih2 : List.map Prod.fst (GoMap.set rest k v)
        = if k ∈ List.map Prod.fst rest then List.map Prod.fst rest
          else List.map Prod.fst rest ++ [k] := ih
    by_cases h0 : k0 = k
    · subst h0
      simp [GoMap.set, GoMap.keys]
    · have h1 : ¬ k = k0 := fun h => h0 h.symm
      simp only [GoMap.set, if_neg h0, GoMap.keys, List.map_cons, List.mem_cons, h1, false_or,
        ih2]
      split <;> simp

theorem GoMap.nodup_keys_set {α : Type} (m : GoMap α) (k : String) (v : α)
    (h : (GoMap.keys m).Nodup) : (GoMap.keys (GoMap.set m k v)).Nodup := by
  rw [GoMap.keys_set]
  split
  · exact h
  · rename_i hk
    rw [List.nodup_append]
    refine ⟨h, List.nodup_singleton k, ?_⟩
    intro a ha hb
    simp only [List.mem_singleton] at hb
    subst hb
    exact hk ha

/-! ### The balance loops -/

theorem foldl_addAddr_field (f : Balance → Amount)
    (hf : ∀ b a, f (addAddr b a) = addInt64 (f b) (f a.balance)) :
    ∀ (addrs : List AddrAndAddrTxOutput) (b : Balance), wrapInt64 (f b) = f b →
      f (addrs.foldl addAddr b) = wrapInt64 (f b + sumField f addrs) := by
  intro addrs
  induction addrs with
  | nil =>
    intro b hb
    simp [sumField, hb]
  | cons a rest ih =>
    intro b hb
    have h1 : wrapInt64 (f (addAddr b a)) = f (addAddr b a) := by
      rw [hf, addInt64, wrapInt64_idem]
    rw [List.foldl_cons, ih (addAddr b a) h1, hf, addInt64, wrapInt64_add_left, sumField,
      Int.add_assoc]

theorem GetBalanceByAccount.loop_eq_foldl (name : String) :
    ∀ (results : List AccountAndAddressResult) (b : Balance),
      GetBalanceByAccount.loop name b results = (addrsOf name results).foldl addAddr b := by
  intro results
  induction results with
  | nil => intro b; rfl
  | cons r rest ih =>
    intro b
    by_cases h : r.AccountName = name
    · simp [GetBalanceByAccount.loop, addrsOf, h, ih, List.foldl_append]
    · simp [GetBalanceByAccount.loop, addrsOf, h, ih]

theorem GetBalanceByAccount.loop_field (f : Balance → Amount)
    (hf : ∀ b a, f (addAddr b a) = addInt64 (f b) (f a.balance)) (h0 : f {} = 0)
    (name : String) (results : List AccountAndAddressResult) :
    f (GetBalanceByAccount.loop name {} results)
      = wrapInt64 (sumField f (addrsOf name results)) := by
  rw [GetBalanceByAccount.loop_eq_foldl, foldl_addAddr_field f hf _ _ (by rw [h0]; rfl), h0,
    Int.zero_add]

theorem addrsOf_eq_nil (name : String) :
    ∀ (results : List AccountAndAddressResult), name ∉ accountNames results →
      addrsOf name results = [] := by
  intro results
  induction results with
  | nil => intro _; rfl
  | cons r rest ih =>
    intro h
    simp only [accountNames, List.map_cons, List.mem_cons, not_or] at h
    have h1 : ¬ r.AccountName = name := fun e => h.1 e.symm
    simp only [addrsOf, if_neg h1]
    exact ih h.2

theorem mem_addrsOf (name : String) (a : AddrAndAddrTxOutput) :
    ∀ (results : List AccountAndAddressResult), a ∈ addrsOf name results →
      ∃ r ∈ results, a ∈ r.AddrsOutput := by
  intro results
  induction results with
  | nil => intro h; simp [addrsOf] at h
  | cons r rest ih =>
    intro h
    by_cases hn : r.AccountName = name
    · simp only [addrsOf, if_pos hn, List.mem_append] at h
      rcases h with h | h
      · exact ⟨r, List.mem_cons_self _ _, h⟩
      · obtain ⟨r1, hr1, ha⟩ := ih h
        exact ⟨r1, List.mem_cons_of_mem _ hr1, ha⟩
    · simp only [addrsOf, if_neg hn] at h
      obtain ⟨r1, hr1, ha⟩ := ih h
      exact ⟨r1, List.mem_cons_of_mem _ hr1, ha⟩

theorem sumField_unspend_mod :
    ∀ (addrs : List AddrAndAddrTxOutput), (∀ a ∈ addrs, a.balance.unspendEq) →
      wrapInt64 (sumField Balance.UnspendAmount addrs)
        = wrapInt64 (sumField Balance.TotalAmount addrs - sumField Balance.SpendAmount addrs) := by
  intro addrs
  induction addrs with
  | nil => intro _; rfl
  | cons a rest ih =>
    intro h
    have ha : wrapInt64 a.balance.UnspendAmount
        = wrapInt64 (a.balance.TotalAmount - a.balance.SpendAmount) := by
      rcases h a (List.mem_cons_self _ _) with e | e
      · rw [e]
      · exact e
    have hr := ih (fun x hx => h x (List.mem_cons_of_mem _ hx))
    simp only [sumField]
    exact wrapInt64_add_of_eq _ _ _ _ _ _ ha hr

theorem GetBalanceByAccount.loop_unspend (name : String)
    (results : List AccountAndAddressResult)
    (h : ∀ r ∈ results, ∀ a ∈ r.AddrsOutput, a.balance.unspendEq) :
    (GetBalanceByAccount.loop name {} results).UnspendAmount
      = subInt64 (GetBalanceByAccount.loop name {} results).TotalAmount
          (GetBalanceByAccount.loop name {} results).SpendAmount := by
  have hm := sumField_unspend_mod (addrsOf name results) (fun a ha => by
    obtain ⟨r, hr, har⟩ := mem_addrsOf name a results ha
    exact h r hr a har)
  rw [GetBalanceByAccount.loop_field Balance.UnspendAmount (fun _ _ => rfl) rfl,
    GetBalanceByAccount.loop_field Balance.TotalAmount (fun _ _ => rfl) rfl,
    GetBalanceByAccount.loop_field Balance.SpendAmount (fun _ _ => rfl) rfl]
  exact wrapInt64_sub_of_eq _ _ _ hm

theorem GetAccountsAndBalance.loop_get? :
    ∀ (aaas : List AccountAndAddressResult) (m : GoMap Balance) (k : String),
      GoMap.get? (GetAccountsAndBalance.loop m aaas) k
        = if k ∈ accountNames aaas then
            some (GetBalanceByAccount.loop k ((GoMap.get? m k).getD {}) aaas)
          else GoMap.get? m k := by
  intro aaas
  induction aaas with
  | nil => intro m k; simp [GetAccountsAndBalance.loop, accountNames]
  | cons r rest ih =>
    intro m k
    simp only [GetAccountsAndBalance.loop]
    rw [ih]
    have hget : ∀ k1, GoMap.get?
        (match GoMap.get? m r.AccountName with
          | none => GoMap.set m r.AccountName {}
          | some _ => m) k1
        = if r.AccountName = k1 then some ((GoMap.get? m k1).getD {}) else GoMap.get? m k1 := by
      intro k1
      cases hm : GoMap.get? m r.AccountName with
      | none =>
        simp only [GoMap.get?_set]
        by_cases hk : r.AccountName = k1
        · subst hk; simp [hm]
        · simp [hk]
      | some b0 =>
        by_cases hk : r.AccountName = k1
        · subst hk; simp [hm]
        · simp [hk]
    rw [GoMap.get?_set, hget k, hget r.AccountName]
    by_cases hk : r.AccountName = k
    · subst hk
      have hmem : r.AccountName ∈ accountNames (r :: rest) := by simp [accountNames]
      by_cases hrest : r.AccountName ∈ accountNames rest
      · simp [GetBalanceByAccount.loop, hrest, hmem]
      · have hnil := addrsOf_eq_nil r.AccountName rest hrest
        simp [GetBalanceByAccount.loop, GetBalanceByAccount.loop_eq_foldl, hnil, hrest, hmem]
    · have hk2 : ¬ k = r.AccountName := fun e => hk e.symm
      have hiff : k ∈ accountNames (r :: rest) ↔ k ∈ accountNames rest := by
        simp [accountNames, hk2]
      simp [GetBalanceByAccount.loop, hk, hiff]

theorem GetAccountsAndBalance.loop_nodup :
    ∀ (aaas : List AccountAndAddressResult) (m : GoMap Balance), (GoMap.keys m).Nodup →
      (GoMap.keys (GetAccountsAndBalance.loop m aaas)).Nodup := by
  intro aaas
  induction aaas with
  | nil => intro m h; exact h
  | cons r rest ih =>
    intro m h
    simp only [GetAccountsAndBalance.loop]
    apply ih
    apply GoMap.nodup_keys_set
    cases GoMap.get? m r.AccountName with
    | none => exact GoMap.nodup_keys_set m _ _ h
    | some _ => exact h

/-! ### The claims -/

/-- C1: `CreateAccount("*")` returns the reserved-account-name error, for every
environment and every wallet state; it invokes no wallet method, in
particular not `NextAccount`, and the wallet state is unchanged. -/
theorem CreateAccount_reserved_name (E : Env S) (s : S.State) :
    (CreateAccount E s "*").ret = some (E.rpcError E.ErrReservedAccountName) ∧
    (CreateAccount E s "*").calls = [] ∧
    (CreateAccount E s "*").calls.any Call.isNextAccount = false ∧
    (CreateAccount E s "*").state = s := by
  simp [CreateAccount]

/-- C2: evaluation at the failing input.  In the concrete wallet the amount 0
converts to the Amount 0 without error, and `SendToAddress`,
`SendToMany` and `SendToAddressByAccount` (the account `default` resolves)
all pass the zero amount on to `SendPairs` and return its result, the
transaction id `txid` with a nil error, instead of the need-positive-amount
error. -/
theorem send_zero_amount_invokes_SendPairs :
    demoEnv.NewAmount (0 : Int) = (0, none) ∧
    (SendToAddress demoEnv demoState "addrX" (0 : Int)).ret = ("txid", none) ∧
    (SendToAddress demoEnv demoState "addrX" (0 : Int)).calls.any Call.isSendPairs = true ∧
    (SendToAddress demoEnv demoState "addrX" (0 : Int)).calls
      = [Call.SendPairs [("addrX", 0)] demoEnv.AccountMergePayNum
          demoEnv.DefaultRelayFeePerKb] ∧
    (SendToMany demoEnv demoState [("addrX", (0 : Int))]).ret = ("txid", none) ∧
    (SendToMany demoEnv demoState [("addrX", (0 : Int))]).calls.any Call.isSendPairs = true ∧
    (SendToAddressByAccount demoEnv demoState "default" "addrX" (0 : Int) "" "").ret
      = ("txid", none) ∧
    (SendToAddressByAccount demoEnv demoState "default" "addrX" (0 : Int) "" "").calls.any
      Call.isSendPairs = true := by
  refine ⟨by decide, by decide, by decide, rfl, by decide, by decide, by decide, by decide⟩

/-- C3: evaluation at the failing input.  In the concrete wallet the account
`default` exists, so `NextAccount` fails with the duplicate-account manager
error, which is not a Locked error; `CreateAccount("default")` invokes
`NextAccount` and returns a nil error. -/
theorem CreateAccount_swallows_NextAccount_error :
    (demoEnv.NextAccount demoState demoEnv.KeyScopeBIP0044 "default").1.2
      = some (DemoError.manager demoErrDuplicateAccount) ∧
    (CreateAccount demoEnv demoState "default").calls.any Call.isNextAccount = true ∧
    (CreateAccount demoEnv demoState "default").ret = none := by
  decide

/-- C4: key import is idempotent at the API.  For an account name that is empty
or the imported-account name and a key valid for the network of the wallet,
`ImportWifPrvKey` and `ImportPriKey` return a nil error whenever the
`ImportPrivateKey` of the wallet reports a duplicate-address error.  Hence
two imports of the same key in a row both return a nil error, when the first
`ImportPrivateKey` succeeds (a nil error, which is not a Locked error) and the
wallet reports the second one as a duplicate address; this is stated for
`ImportWifPrvKey` and for `ImportPriKey`. -/
theorem import_key_idempotent (E : Env S) (s : S.State) (accountName key : String)
    (hacc : accountName = "" ∨ accountName = E.ImportedAddrAccountName) :
    (∀ wif, E.DecodeWIF key (E.ChainParams s) = .ok wif →
      E.IsForNet wif (E.ChainParams s) = true →
      E.IsError (E.ImportPrivateKey s E.KeyScopeBIP0044 wif).1.2 E.ErrDuplicateAddress = true →
      (ImportWifPrvKey E s accountName key).ret = none) ∧
    (∀ wif, (E.hexDecodeString key).2 = none →
      E.NewWIF (E.PrivKeyFromBytes (E.hexDecodeString key).1) (E.ChainParams s) true = .ok wif →
      E.IsForNet wif (E.ChainParams s) = true →
      E.IsError (E.ImportPrivateKey s E.KeyScopeBIP0044 wif).1.2 E.ErrDuplicateAddress = true →
      (ImportPriKey E s accountName key).ret = none) ∧
    (∀ wif wif2, E.IsError none E.ErrLocked = false →
      E.DecodeWIF key (E.ChainParams s) = .ok wif →
      E.IsForNet wif (E.ChainParams s) = true →
      (E.ImportPrivateKey s E.KeyScopeBIP0044 wif).1.2 = none →
      E.DecodeWIF key (E.ChainParams (ImportWifPrvKey E s accountName key).state) = .ok wif2 →
      E.IsForNet wif2 (E.ChainParams (ImportWifPrvKey E s accountName key).state) = true →
      E.IsError (E.ImportPrivateKey (ImportWifPrvKey E s accountName key).state
        E.KeyScopeBIP0044 wif2).1.2 E.ErrDuplicateAddress = true →
      (ImportWifPrvKey E s accountName key).ret = none ∧
      (ImportWifPrvKey E (ImportWifPrvKey E s accountName key).state accountName key).ret
        = none) ∧
    (∀ wif wif2, E.IsError none E.ErrLocked = false →
      (E.hexDecodeString key).2 = none →
      E.NewWIF (E.PrivKeyFromBytes (E.hexDecodeString key).1) (E.ChainParams s) true = .ok wif →
      E.IsForNet wif (E.ChainParams s) = true →
      (E.ImportPrivateKey s E.KeyScopeBIP0044 wif).1.2 = none →
      E.NewWIF (E.PrivKeyFromBytes (E.hexDecodeString key).1)
        (E.ChainParams (ImportPriKey E s accountName key).state) true = .ok wif2 →
      E.IsForNet wif2 (E.ChainParams (ImportPriKey E s accountName key).state) = true →
      E.IsError (E.ImportPrivateKey (ImportPriKey E s accountName key).state
        E.KeyScopeBIP0044 wif2).1.2 E.ErrDuplicateAddress = true →
      (ImportPriKey E s accountName key).ret = none ∧
      (ImportPriKey E (ImportPriKey E s accountName key).state accountName key).ret
        = none) := by
  have hguard : ¬ (accountName ≠ "" ∧ accountName ≠ E.ImportedAddrAccountName) := by
    rcases hacc with h | h
    · exact fun hn => hn.1 h
    · exact fun hn => hn.2 h
  have hwif : ∀ (t : S.State) (w : S.WIF), E.DecodeWIF key (E.ChainParams t) = .ok w →
      E.IsForNet w (E.ChainParams t) = true →
      E.IsError (E.ImportPrivateKey t E.KeyScopeBIP0044 w).1.2 E.ErrDuplicateAddress = true →
      (ImportWifPrvKey E t accountName key).ret = none := by
    intro t w hdec hnet hdup
    simp [ImportWifPrvKey, hguard, hdec, hnet, hdup]
  have hpri : ∀ (t : S.State) (w : S.WIF), (E.hexDecodeString key).2 = none →
      E.NewWIF (E.PrivKeyFromBytes (E.hexDecodeString key).1) (E.ChainParams t) true = .ok w →
      E.IsForNet w (E.ChainParams t) = true →
      E.IsError (E.ImportPrivateKey t E.KeyScopeBIP0044 w).1.2 E.ErrDuplicateAddress = true →
      (ImportPriKey E t accountName key).ret = none := by
    intro t w hhex hnew hnet hdup
    simp [ImportPriKey, hguard, hhex, hnew, hnet, hdup]
  refine ⟨hwif s, hpri s, ?_, ?_⟩
  · intro wif wif2 hnil hdec hnet hok hdec2 hnet2 hdup2
    refine ⟨?_, hwif _ wif2 hdec2 hnet2 hdup2⟩
    simp only [ImportWifPrvKey, if_neg hguard, hdec, hnet, hok, hnil]
    by_cases hd : E.IsError none E.ErrDuplicateAddress = true <;> simp [hd]
  · intro wif wif2 hnil hhex hnew hnet hok hnew2 hnet2 hdup2
    refine ⟨?_, hpri _ wif2 hhex hnew2 hnet2 hdup2⟩
    simp only [ImportPriKey, if_neg hguard, hhex, hnew, hnet, hok, hnil]
    by_cases hd : E.IsError none E.ErrDuplicateAddress = true <;> simp [hd]

/-- C4, at concrete inputs: in the concrete wallet the key `testnet-1` is imported
twice, into the empty and into the imported account name; the first
`ImportPrivateKey` succeeds, the second reports a duplicate address, and both
responses are nil.  The hex key `abcd` is imported into a wallet that knows
its key already, and twice in a row into the wallet that does not. -/
theorem import_key_idempotent_witness :
    (ImportWifPrvKey demoEnv demoState "" "testnet-1").ret = none ∧
    (ImportWifPrvKey demoEnv (ImportWifPrvKey demoEnv demoState "" "testnet-1").state
      "" "testnet-1").ret = none ∧
    (ImportWifPrvKey demoEnv { demoState with keys := ["testnet-1"] }
      "imported" "testnet-1").ret = none ∧
    (ImportPriKey demoEnv { demoState with keys := ["testnet-hex"] } "" "abcd").ret = none ∧
    ((ImportPriKey demoEnv demoState "" "abcd").ret = none ∧
      (ImportPriKey demoEnv (ImportPriKey demoEnv demoState "" "abcd").state "" "abcd").ret
        = none) :=
  ⟨((import_key_idempotent demoEnv demoState "" "testnet-1" (Or.inl rfl)).2.2.1
      "testnet-1" "testnet-1" (by decide) rfl (by decide) (by decide)
      rfl (by decide) (by decide)).1,
   ((import_key_idempotent demoEnv demoState "" "testnet-1" (Or.inl rfl)).2.2.1
      "testnet-1" "testnet-1" (by decide) rfl (by decide) (by decide)
      rfl (by decide) (by decide)).2,
   (import_key_idempotent demoEnv { demoState with keys := ["testnet-1"] }
      "imported" "testnet-1" (Or.inr rfl)).1
      "testnet-1" rfl (by decide) (by decide),
   (import_key_idempotent demoEnv { demoState with keys := ["testnet-hex"] }
      "" "abcd" (Or.inl rfl)).2.1
      "testnet-hex" (by decide) rfl (by decide) (by decide),
   (import_key_idempotent demoEnv demoState "" "abcd" (Or.inl rfl)).2.2.2
      "testnet-hex" "testnet-hex" (by decide) (by decide) rfl (by decide) (by decide)
      rfl (by decide) (by decide)⟩

/-- C5: a key for another network is rejected with no side effect.  For an
account name that is empty or the imported-account name and a key whose WIF
fails to decode for the chain parameters of the wallet, or decodes to a key
that is not for them, `ImportWifPrvKey` returns an RPC error with the code
`ErrRPCInvalidAddressOrKey`, invokes no wallet method, in particular not
`ImportPrivateKey`, and leaves the wallet state unchanged. -/
theorem ImportWifPrvKey_wrong_network (E : Env S) (s : S.State) (accountName key : String)
    (hacc : accountName = "" ∨ accountName = E.ImportedAddrAccountName)
    (hbad : (∃ err, E.DecodeWIF key (E.ChainParams s) = .error err) ∨
      (∃ wif, E.DecodeWIF key (E.ChainParams s) = .ok wif ∧
        E.IsForNet wif (E.ChainParams s) = false)) :
    (∃ msg, (ImportWifPrvKey E s accountName key).ret
      = some (E.rpcError ⟨E.ErrRPCInvalidAddressOrKey, msg⟩)) ∧
    (ImportWifPrvKey E s accountName key).calls = [] ∧
    (ImportWifPrvKey E s accountName key).calls.any Call.isImportPrivateKey = false ∧
    (ImportWifPrvKey E s accountName key).state = s := by
  have hguard : ¬ (accountName ≠ "" ∧ accountName ≠ E.ImportedAddrAccountName) := by
    rcases hacc with h | h
    · exact fun hn => hn.1 h
    · exact fun hn => hn.2 h
  rcases hbad with ⟨err, hdec⟩ | ⟨wif, hdec, hnet⟩
  · have h : ImportWifPrvKey E s accountName key
        = ⟨some (E.rpcError ⟨E.ErrRPCInvalidAddressOrKey,
            "WIF decode failed: " ++ E.errorText err⟩), s, []⟩ := by
      simp [ImportWifPrvKey, hguard, hdec]
    rw [h]
    exact ⟨⟨_, rfl⟩, rfl, rfl, rfl⟩
  · have h : ImportWifPrvKey E s accountName key
        = ⟨some (E.rpcError ⟨E.ErrRPCInvalidAddressOrKey,
            "Key is not intended for " ++ E.ParamsName (E.ChainParams s)⟩), s, []⟩ := by
      simp [ImportWifPrvKey, hguard, hdec, hnet]
    rw [h]
    exact ⟨⟨_, rfl⟩, rfl, rfl, rfl⟩

/-- C5, at concrete inputs: in the concrete wallet, whose network is `testnet`,
the empty key fails to decode and the key `mainnet-1` is for another network;
both are rejected with the code -5 and the wallet, its keys included, is
unchanged. -/
theorem ImportWifPrvKey_wrong_network_witness :
    ((∃ msg, (ImportWifPrvKey demoEnv demoState "" "").ret
      = some (demoEnv.rpcError ⟨-5, msg⟩)) ∧
      (ImportWifPrvKey demoEnv demoState "" "").calls = [] ∧
      (ImportWifPrvKey demoEnv demoState "" "").calls.any Call.isImportPrivateKey = false ∧
      (ImportWifPrvKey demoEnv demoState "" "").state = demoState) ∧
    ((∃ msg, (ImportWifPrvKey demoEnv demoState "imported" "mainnet-1").ret
      = some (demoEnv.rpcError ⟨-5, msg⟩)) ∧
      (ImportWifPrvKey demoEnv demoState "imported" "mainnet-1").calls = [] ∧
      (ImportWifPrvKey demoEnv demoState "imported" "mainnet-1").calls.any
        Call.isImportPrivateKey = false ∧
      (ImportWifPrvKey demoEnv demoState "imported" "mainnet-1").state = demoState) :=
  ⟨ImportWifPrvKey_wrong_network demoEnv demoState "" "" (Or.inl rfl)
      (Or.inl ⟨DemoError.text "malformed private key", rfl⟩),
   ImportWifPrvKey_wrong_network demoEnv demoState "imported" "mainnet-1" (Or.inr rfl)
      (Or.inr ⟨"mainnet-1", rfl, by decide⟩)⟩

/-- C6: `DumpPrivKey` fails with Locked when the vault is locked.  For an address
string that decodes, if `DumpWIFPrivateKey` returns a Locked error then
`DumpPrivKey` returns the empty key with the wallet-unlock-needed error, and
otherwise it returns the key and the error of `DumpWIFPrivateKey` unchanged;
`DumpWIFPrivateKey` is invoked once in both cases. -/
theorem DumpPrivKey_locked (E : Env S) (s : S.State) (addrStr : String) (addr : S.Address)
    (hdec : E.DecodeAddress addrStr = .ok addr) :
    (E.IsError (E.DumpWIFPrivateKey s addr).1.2 E.ErrLocked = true →
      (DumpPrivKey E s addrStr).ret = ("", some (E.rpcError E.ErrWalletUnlockNeeded))) ∧
    (E.IsError (E.DumpWIFPrivateKey s addr).1.2 E.ErrLocked = false →
      (DumpPrivKey E s addrStr).ret = (E.DumpWIFPrivateKey s addr).1) ∧
    (DumpPrivKey E s addrStr).calls = [Call.DumpWIFPrivateKey addr] := by
  refine ⟨?_, ?_, ?_⟩
  · intro h
    simp [DumpPrivKey, hdec, h]
  · intro h
    simp [DumpPrivKey, hdec, h]
  · by_cases h : E.IsError (E.DumpWIFPrivateKey s addr).1.2 E.ErrLocked = true <;>
      simp [DumpPrivKey, hdec, h]

/-- C6, at concrete inputs: the locked concrete wallet answers `DumpPrivKey` with
the wallet-unlock-needed error, the unlocked one with the key. -/
theorem DumpPrivKey_locked_witness :
    (DumpPrivKey demoEnv demoLocked "a1").ret
      = ("", some (demoEnv.rpcError demoEnv.ErrWalletUnlockNeeded)) ∧
    (DumpPrivKey demoEnv demoState "a1").ret = ("wif-of-a1", none) :=
  ⟨(DumpPrivKey_locked demoEnv demoLocked "a1" "a1" rfl).1 (by decide),
   (DumpPrivKey_locked demoEnv demoState "a1" "a1" rfl).2.1 (by decide)⟩

/-- C8: `GetBalanceByAccount` computes the four balance fields independently from
one snapshot.  For every name it invokes `GetAccountAndAddress` exactly once,
and no other wallet method.  When that call fails, the error is returned with
no balance.  When it succeeds with the listing `results`, the error is nil and
each of the fields `ConfirmAmount`, `SpendAmount`, `TotalAmount` and
`UnspendAmount` of the returned balance is the sum of the same field over
every address of every listed entry whose account name equals the name: the
sum as an `int64`, which is the exact sum whenever the exact sum is in the
`int64` range.  For a name that matches no entry the balance is zero. -/
theorem GetBalanceByAccount_sums (E : Env S) (s : S.State) (name : String) :
    (GetBalanceByAccount E s name).calls = [Call.GetAccountAndAddress E.KeyScopeBIP0044] ∧
    (∀ err, (E.GetAccountAndAddress s E.KeyScopeBIP0044).1.2 = some err →
      (GetBalanceByAccount E s name).ret = (none, some err)) ∧
    (∀ results, (E.GetAccountAndAddress s E.KeyScopeBIP0044).1 = (results, none) →
      ∃ b, (GetBalanceByAccount E s name).ret = (some b, none) ∧
        (∀ f ∈ [Balance.ConfirmAmount, Balance.SpendAmount, Balance.TotalAmount,
            Balance.UnspendAmount],
          f b = wrapInt64 (sumField f (addrsOf name results)) ∧
          (inInt64 (sumField f (addrsOf name results)) →
            f b = sumField f (addrsOf name results))) ∧
        (name ∉ accountNames results → b = {})) := by
  refine ⟨?_, ?_, ?_⟩
  · cases h : (E.GetAccountAndAddress s E.KeyScopeBIP0044).1.2 <;>
      simp [GetBalanceByAccount, h]
  · intro err herr
    simp [GetBalanceByAccount, herr]
  · intro results hres
    have h1 : (E.GetAccountAndAddress s E.KeyScopeBIP0044).1.1 = results := by rw [hres]
    have h2 : (E.GetAccountAndAddress s E.KeyScopeBIP0044).1.2 = none := by rw [hres]
    refine ⟨GetBalanceByAccount.loop name {} results, ?_, ?_, ?_⟩
    · simp [GetBalanceByAccount, h1, h2]
    · intro f hf
      have hfield : f (GetBalanceByAccount.loop name {} results)
          = wrapInt64 (sumField f (addrsOf name results)) := by
        simp only [List.mem_cons, List.mem_singleton, List.not_mem_nil, or_false] at hf
        rcases hf with rfl | rfl | rfl | rfl <;>
          exact GetBalanceByAccount.loop_field _ (fun _ _ => rfl) rfl name results
      exact ⟨hfield, fun hin => by rw [hfield, wrapInt64_of_inInt64 _ hin]⟩
    · intro hno
      rw [GetBalanceByAccount.loop_eq_foldl, addrsOf_eq_nil name results hno]
      rfl

/-- C8, at concrete inputs: in the concrete wallet the account `default` is listed
twice, with the addresses a1, a2 and a3, and `GetBalanceByAccount` returns the
sums 10, 2, 14 and 12 of their four fields; the unknown account `nobody` has
the zero balance. -/
theorem GetBalanceByAccount_sums_witness :
    (∃ b, (GetBalanceByAccount demoEnv demoState "default").ret = (some b, none) ∧
      b.ConfirmAmount = 10 ∧ b.SpendAmount = 2 ∧ b.TotalAmount = 14 ∧ b.UnspendAmount = 12) ∧
    (∃ b, (GetBalanceByAccount demoEnv demoState "nobody").ret = (some b, none) ∧ b = {}) := by
  constructor
  · obtain ⟨b, hb, hf, _⟩ :=
      (GetBalanceByAccount_sums demoEnv demoState "default").2.2 demoState.listing rfl
    exact ⟨b, hb,
      ((hf Balance.ConfirmAmount (by simp)).2 (by decide)).trans (by decide),
      ((hf Balance.SpendAmount (by simp)).2 (by decide)).trans (by decide),
      ((hf Balance.TotalAmount (by simp)).2 (by decide)).trans (by decide),
      ((hf Balance.UnspendAmount (by simp)).2 (by decide)).trans (by decide)⟩
  · obtain ⟨b, hb, _, hz⟩ :=
      (GetBalanceByAccount_sums demoEnv demoState "nobody").2.2 demoState.listing rfl
    exact ⟨b, hb, hz (by decide)⟩

/-- C9: the account balance satisfies `UnspendAmount = TotalAmount − SpendAmount`.
Given a snapshot in which every per-address balance satisfies the equation
(exactly, or modulo 2^64), the balance returned by `GetBalanceByAccount` for
every account name, and every entry of the map returned by
`GetAccountsAndBalance`, satisfies it with the `int64` subtraction, that is
modulo 2^64, and satisfies it in exact integer arithmetic whenever
`TotalAmount − SpendAmount` is in the `int64` range. -/
theorem balance_unspend_equation (E : Env S) (s : S.State)
    (results : List AccountAndAddressResult)
    (hsnap : (E.GetAccountAndAddress s E.KeyScopeBIP0044).1 = (results, none))
    (haddr : ∀ r ∈ results, ∀ a ∈ r.AddrsOutput, a.balance.unspendEq) :
    (∀ name, ∃ b, (GetBalanceByAccount E s name).ret = (some b, none) ∧
      b.UnspendAmount = subInt64 b.TotalAmount b.SpendAmount ∧
      (inInt64 (b.TotalAmount - b.SpendAmount) →
        b.UnspendAmount = b.TotalAmount - b.SpendAmount)) ∧
    (∃ m, (GetAccountsAndBalance E s).ret = (some m, none) ∧
      ∀ name b, GoMap.get? m name = some b →
        b.UnspendAmount = subInt64 b.TotalAmount b.SpendAmount ∧
        (inInt64 (b.TotalAmount - b.SpendAmount) →
          b.UnspendAmount = b.TotalAmount - b.SpendAmount)) := by
  have h1 : (E.GetAccountAndAddress s E.KeyScopeBIP0044).1.1 = results := by rw [hsnap]
  have h2 : (E.GetAccountAndAddress s E.KeyScopeBIP0044).1.2 = none := by rw [hsnap]
  have hloop : ∀ name,
      (GetBalanceByAccount.loop name {} results).UnspendAmount
        = subInt64 (GetBalanceByAccount.loop name {} results).TotalAmount
            (GetBalanceByAccount.loop name {} results).SpendAmount ∧
      (inInt64 ((GetBalanceByAccount.loop name {} results).TotalAmount
          - (GetBalanceByAccount.loop name {} results).SpendAmount) →
        (GetBalanceByAccount.loop name {} results).UnspendAmount
          = (GetBalanceByAccount.loop name {} results).TotalAmount
            - (GetBalanceByAccount.loop name {} results).SpendAmount) := by
    intro name
    have hu := GetBalanceByAccount.loop_unspend name results haddr
    refine ⟨hu, fun hin => ?_⟩
    rw [hu, subInt64, wrapInt64_of_inInt64 _ hin]
  refine ⟨fun name => ⟨GetBalanceByAccount.loop name {} results, ?_, hloop name⟩,
    ⟨GetAccountsAndBalance.loop [] results, ?_, ?_⟩⟩
  · simp [GetBalanceByAccount, h1, h2]
  · simp [GetAccountsAndBalance, h1, h2]
  · intro name b hget
    rw [GetAccountsAndBalance.loop_get?] at hget
    by_cases hmem : name ∈ accountNames results
    · rw [if_pos hmem] at hget
      have hb : b = GetBalanceByAccount.loop name {} results := by
        simpa [GoMap.get?] using hget.symm
      rw [hb]
      exact hloop name
    · rw [if_neg hmem] at hget
      simp [GoMap.get?] at hget

/-- C9, at concrete inputs: every per-address balance of the concrete wallet
satisfies the equation, and so do the balance of the account `default`
(12 = 14 − 2) and the entry of `savings` in the map of all accounts. -/
theorem balance_unspend_equation_witness :
    (∃ b, (GetBalanceByAccount demoEnv demoState "default").ret = (some b, none) ∧
      b.UnspendAmount = b.TotalAmount - b.SpendAmount) ∧
    (∃ m b, (GetAccountsAndBalance demoEnv demoState).ret = (some m, none) ∧
      GoMap.get? m "savings" = some b ∧
      b.UnspendAmount = b.TotalAmount - b.SpendAmount) := by
  have h := balance_unspend_equation demoEnv demoState demoState.listing rfl (by decide)
  constructor
  · obtain ⟨b, hb, _, hex⟩ := h.1 "default"
    have hb2 : b = ⟨14, 12, 2, 10⟩ := by
      have := hb.symm.trans (show (GetBalanceByAccount demoEnv demoState "default").ret
        = (some ⟨14, 12, 2, 10⟩, none) by decide)
      simpa using this
    exact ⟨b, hb, hex (by rw [hb2]; decide)⟩
  · obtain ⟨m, hm, hall⟩ := h.2
    have hm2 : m = [("default", ⟨14, 12, 2, 10⟩), ("savings", ⟨10, 8, 2, 9⟩)] := by
      have := hm.symm.trans (show (GetAccountsAndBalance demoEnv demoState).ret
        = (some [("default", ⟨14, 12, 2, 10⟩), ("savings", ⟨10, 8, 2, 9⟩)], none) by decide)
      simpa using this
    have hg : GoMap.get? m "savings" = some ⟨10, 8, 2, 9⟩ := by rw [hm2]; decide
    exact ⟨m, ⟨10, 8, 2, 9⟩, hm, hg, (hall "savings" _ hg).2 (by decide)⟩

/-- C10: `GetAccountsAndBalance` and `GetBalanceByAccount` agree on the same
snapshot.  When `GetAccountAndAddress` returns the same listing to both
methods (account names may occur in several entries), `GetAccountsAndBalance`
returns a map whose keys are exactly the account names of the listing, each
once, and for every such name the balance in the map is the balance that
`GetBalanceByAccount` returns for the name. -/
theorem GetAccountsAndBalance_agrees (E : Env S) (s1 s2 : S.State)
    (aaas : List AccountAndAddressResult)
    (h1 : (E.GetAccountAndAddress s1 E.KeyScopeBIP0044).1 = (aaas, none))
    (h2 : (E.GetAccountAndAddress s2 E.KeyScopeBIP0044).1 = (aaas, none)) :
    ∃ m, (GetAccountsAndBalance E s1).ret = (some m, none) ∧
      (GoMap.keys m).Nodup ∧
      (∀ k, k ∈ GoMap.keys m ↔ ∃ r ∈ aaas, r.AccountName = k) ∧
      (∀ k, k ∈ GoMap.keys m →
        ∃ b, GoMap.get? m k = some b ∧
          (GetBalanceByAccount E s2 k).ret = (some b, none)) := by
  have h11 : (E.GetAccountAndAddress s1 E.KeyScopeBIP0044).1.1 = aaas := by rw [h1]
  have h12 : (E.GetAccountAndAddress s1 E.KeyScopeBIP0044).1.2 = none := by rw [h1]
  have h21 : (E.GetAccountAndAddress s2 E.KeyScopeBIP0044).1.1 = aaas := by rw [h2]
  have h22 : (E.GetAccountAndAddress s2 E.KeyScopeBIP0044).1.2 = none := by rw [h2]
  have hkeys : ∀ k, k ∈ GoMap.keys (GetAccountsAndBalance.loop [] aaas)
      ↔ k ∈ accountNames aaas := by
    intro k
    rw [GoMap.mem_keys_iff]
    simp only [GetAccountsAndBalance.loop_get?]
    by_cases hmem : k ∈ accountNames aaas
    · simp [hmem]
    · simp [hmem, GoMap.get?]
  refine ⟨GetAccountsAndBalance.loop [] aaas, ?_, ?_, ?_, ?_⟩
  · simp [GetAccountsAndBalance, h11, h12]
  · exact GetAccountsAndBalance.loop_nodup aaas [] List.nodup_nil
  · intro k
    rw [hkeys]
    simp [accountNames]
  · intro k hk
    have hmem := (hkeys k).1 hk
    refine ⟨GetBalanceByAccount.loop k {} aaas, ?_, ?_⟩
    · rw [GetAccountsAndBalance.loop_get?, if_pos hmem]
      simp [GoMap.get?]
    · simp [GetBalanceByAccount, h21, h22]

/-- C10, at concrete inputs: for the listing of the concrete wallet, where
`default` occurs in two entries, the map has the keys `default` and `savings`
and its balance for `default` is the one `GetBalanceByAccount` returns. -/
theorem GetAccountsAndBalance_agrees_witness :
    ∃ m, (GetAccountsAndBalance demoEnv demoState).ret = (some m, none) ∧
      GoMap.keys m = ["default", "savings"] ∧
      ∃ b, GoMap.get? m "default" = some b ∧
        (GetBalanceByAccount demoEnv demoState "default").ret = (some b, none) := by
  obtain ⟨m, hm, _, _, hall⟩ :=
    GetAccountsAndBalance_agrees demoEnv demoState demoState demoState.listing rfl rfl
  have hm2 : m = [("default", ⟨14, 12, 2, 10⟩), ("savings", ⟨10, 8, 2, 9⟩)] := by
    have := hm.symm.trans (show (GetAccountsAndBalance demoEnv demoState).ret
      = (some [("default", ⟨14, 12, 2, 10⟩), ("savings", ⟨10, 8, 2, 9⟩)], none) by decide)
    simpa using this
  have hk : GoMap.keys m = ["default", "savings"] := by rw [hm2]; decide
  exact ⟨m, hm, hk, hall "default" (by rw [hk]; decide)⟩

end Wallet
